import Mathlib

/-!
Shallow embedding of velox/type/TimestampConversion.cpp (Facebook Velox).

Conventions of the embedding:
* C character buffers `(const char* buf, size_t len)` become `List Char`
  (the length is `buf.length`); the mutable cursor `size_t& pos` becomes
  explicit position passing, and a `bool` return with out-parameters becomes
  `Option`/tuples.
* C `int32_t`/`int64_t` become `Int`.  With the modelled year bounds, none of
  the checked arithmetic calls (`checkedPlus`, `checkedMultiply`,
  `checkedNegate`) can overflow a 64-bit integer on any reachable path, so
  they are embedded as plain `Int` operations.
* C `/` and `%` truncate toward zero; they are embedded as `Int.tdiv` /
  `Int.tmod`.  Where the C operands are provably non-negative the embedding
  uses Lean's `/` and `%` (Euclidean, which agrees with C on non-negative
  operands); each such place is marked with a comment.
* `while` loops become structurally recursive helpers on an explicit fuel
  that is, at every call site, at least the number of iterations the C loop
  performs, so the fuel-exhaustion branch is never taken and the helper
  computes exactly what the loop computes.
* `folly::Expected<T, Status>` becomes `Option` where no claim inspects the
  error payload, and dedicated result inductives where a claim distinguishes
  error kinds.  The thread-local `threadSkipErrorDetails()` flag becomes an
  explicit `Bool` parameter.  `VELOX_UNREACHABLE()` (an uncatchable
  programming-error abort) is modelled as a distinguished result constructor.
* The timezone service (`tz::locateZone`, `Timestamp::toTimezone`,
  `Timestamp::toGMT`) is external to this file's source and is passed in as
  a function parameter.
-/

namespace Velox

/-- Modelled from the spec: constants from the missing header
velox/type/TimestampConversion.h.  Time-unit constants are the usual fixed
conversion factors used throughout the source. -/
abbrev kMinsPerHour : Int := 60

abbrev kSecsPerMinute : Int := 60

abbrev kSecsPerDay : Int := 86400

abbrev kMicrosPerSec : Int := 1000000

abbrev kMicrosPerMsec : Int := 1000

abbrev kMillisPerSecond : Int := 1000

abbrev kMillisPerMinute : Int := 60000

abbrev kMillisPerHour : Int := 3600000

abbrev kNanosPerMicro : Int := 1000

/-- Modelled from the spec: the "fixed multi-year interval" used to normalize
years before table lookup (missing header velox/type/TimestampConversion.h);
400 Gregorian years of 146097 days, matching the last entry of the
`kCumulativeYearDays` table in the source. -/
abbrev kYearInterval : Int := 400

abbrev kDaysPerYearInterval : Int := 146097

/-- Modelled from the spec: the configured minimum/maximum representable year
(missing header velox/type/TimestampConversion.h).  The spec requires a very
wide configured year window whose textual B.C. form is re-validated against
the minimum year after the `1 - year` remap, which forces
`1 - kMaxYear < kMinYear`; the values used here are the Joda-datetime
compatible bounds. -/
abbrev kMinYear : Int := -292275055

abbrev kMaxYear : Int := 292278994

/-- Per-month day counts for leap years, `kLeapDays` in the source
(index 0 is a filler so that month values 1..12 index directly). -/
def kLeapDays : List Int :=
  [0, 31, 29, 31, 30, 31, 30, 31, 31, 30, 31, 30, 31]

/-- Per-month day counts for non-leap years, `kNormalDays` in the source. -/
def kNormalDays : List Int :=
  [0, 31, 28, 31, 30, 31, 30, 31, 31, 30, 31, 30, 31]

/-- Cumulative days before each month, non-leap, `kCumulativeDays`. -/
def kCumulativeDays : List Int :=
  [0, 31, 59, 90, 120, 151, 181, 212, 243, 273, 304, 334, 365]

/-- Cumulative days before each month, leap, `kCumulativeLeapDays`. -/
def kCumulativeLeapDays : List Int :=
  [0, 31, 60, 91, 121, 152, 182, 213, 244, 274, 305, 335, 366]

/-- Cumulative days from 1970-01-01 to January 1st of year 1970+i,
transcribed from `kCumulativeYearDays` in the source (401 entries). -/
def kCumulativeYearDays : List Int :=
  [0, 365, 730, 1096, 1461, 1826, 2191, 2557, 2922, 3287, 3652, 4018, 4383,
   4748, 5113, 5479, 5844, 6209, 6574, 6940, 7305, 7670, 8035, 8401, 8766,
   9131, 9496, 9862, 10227, 10592, 10957, 11323, 11688, 12053, 12418, 12784,
   13149, 13514, 13879, 14245, 14610, 14975, 15340, 15706, 16071, 16436,
   16801, 17167, 17532, 17897, 18262, 18628, 18993, 19358, 19723, 20089,
   20454, 20819, 21184, 21550, 21915, 22280, 22645, 23011, 23376, 23741,
   24106, 24472, 24837, 25202, 25567, 25933, 26298, 26663, 27028, 27394,
   27759, 28124, 28489, 28855, 29220, 29585, 29950, 30316, 30681, 31046,
   31411, 31777, 32142, 32507, 32872, 33238, 33603, 33968, 34333, 34699,
   35064, 35429, 35794, 36160, 36525, 36890, 37255, 37621, 37986, 38351,
   38716, 39082, 39447, 39812, 40177, 40543, 40908, 41273, 41638, 42004,
   42369, 42734, 43099, 43465, 43830, 44195, 44560, 44926, 45291, 45656,
   46021, 46387, 46752, 47117, 47482, 47847, 48212, 48577, 48942, 49308,
   49673, 50038, 50403, 50769, 51134, 51499, 51864, 52230, 52595, 52960,
   53325, 53691, 54056, 54421, 54786, 55152, 55517, 55882, 56247, 56613,
   56978, 57343, 57708, 58074, 58439, 58804, 59169, 59535, 59900, 60265,
   60630, 60996, 61361, 61726, 62091, 62457, 62822, 63187, 63552, 63918,
   64283, 64648, 65013, 65379, 65744, 66109, 66474, 66840, 67205, 67570,
   67935, 68301, 68666, 69031, 69396, 69762, 70127, 70492, 70857, 71223,
   71588, 71953, 72318, 72684, 73049, 73414, 73779, 74145, 74510, 74875,
   75240, 75606, 75971, 76336, 76701, 77067, 77432, 77797, 78162, 78528,
   78893, 79258, 79623, 79989, 80354, 80719, 81084, 81450, 81815, 82180,
   82545, 82911, 83276, 83641, 84006, 84371, 84736, 85101, 85466, 85832,
   86197, 86562, 86927, 87293, 87658, 88023, 88388, 88754, 89119, 89484,
   89849, 90215, 90580, 90945, 91310, 91676, 92041, 92406, 92771, 93137,
   93502, 93867, 94232, 94598, 94963, 95328, 95693, 96059, 96424, 96789,
   97154, 97520, 97885, 98250, 98615, 98981, 99346, 99711, 100076, 100442,
   100807, 101172, 101537, 101903, 102268, 102633, 102998, 103364, 103729,
   104094, 104459, 104825, 105190, 105555, 105920, 106286, 106651, 107016,
   107381, 107747, 108112, 108477, 108842, 109208, 109573, 109938, 110303,
   110669, 111034, 111399, 111764, 112130, 112495, 112860, 113225, 113591,
   113956, 114321, 114686, 115052, 115417, 115782, 116147, 116513, 116878,
   117243, 117608, 117974, 118339, 118704, 119069, 119435, 119800, 120165,
   120530, 120895, 121260, 121625, 121990, 122356, 122721, 123086, 123451,
   123817, 124182, 124547, 124912, 125278, 125643, 126008, 126373, 126739,
   127104, 127469, 127834, 128200, 128565, 128930, 129295, 129661, 130026,
   130391, 130756, 131122, 131487, 131852, 132217, 132583, 132948, 133313,
   133678, 134044, 134409, 134774, 135139, 135505, 135870, 136235, 136600,
   136966, 137331, 137696, 138061, 138427, 138792, 139157, 139522, 139888,
   140253, 140618, 140983, 141349, 141714, 142079, 142444, 142810, 143175,
   143540, 143905, 144271, 144636, 145001, 145366, 145732, 146097]

/-- Embedding of `ParseMode` from velox/type/TimestampConversion.h (names as used by the
source).  Dialect map: kStrict = strict, kNonStrict = non-strict/legacy,
kSparkCast = vendor-cast-A, kPrestoCast = vendor-cast-B, kIso8601 = ISO-8601. -/
inductive ParseMode where
  | kStrict
  | kNonStrict
  | kPrestoCast
  | kSparkCast
  | kIso8601
deriving DecidableEq, Repr

/-- Embedding of `TimestampParseMode` from velox/type/TimestampConversion.h. -/
inductive TimestampParseMode where
  | kIso8601
  | kPrestoCast
  | kLegacyCast
  | kSparkCast
deriving DecidableEq, Repr

/-- A Velox `Timestamp`: seconds since epoch plus nanosecond fraction. -/
structure Timestamp where
  seconds : Int
  nanos : Int
deriving DecidableEq, Repr

/-- Reads `buf[pos]`; the default is irrelevant because every use is guarded
by a `pos < len` bounds check exactly where the C code has one. -/
def chAt (buf : List Char) (pos : Nat) : Char := buf.getD pos (Char.ofNat 0)

/-- Embedding of `characterIsSpace` from the source. -/
def characterIsSpace (c : Char) : Bool :=
  c == ' ' || c == '\t' || c == '\n' || c == Char.ofNat 11 || c == Char.ofNat 12 ||
  c == '\r'

/-- Embedding of `characterIsDigit` from the source. -/
def characterIsDigit (c : Char) : Bool :=
  '0' ≤ c && c ≤ '9'

/-- Embedding of `buf[pos] - '0'` in the source. -/
def digitVal (c : Char) : Int := (c.toNat : Int) - 48

/-- Fuel-indexed body of the `skipSpaces` while loop; the fuel
`buf.length - pos` equals the maximal number of iterations. -/
def skipSpacesAux (buf : List Char) : Nat → Nat → Nat
  | 0, pos => pos
  | fuel + 1, pos =>
    if pos < buf.length ∧ characterIsSpace (chAt buf pos) = true then
      skipSpacesAux buf fuel (pos + 1)
    else pos

/-- Embedding of `skipSpaces` from the source: advance past a run of whitespace. -/
def skipSpaces (buf : List Char) (pos : Nat) : Nat :=
  skipSpacesAux buf (buf.length - pos) pos

/-- Embedding of `parseDoubleDigit` from the source: one mandatory digit, one optional
digit; returns the value and the new position. -/
def parseDoubleDigit (buf : List Char) (pos : Nat) : Option (Int × Nat) :=
  if pos < buf.length ∧ characterIsDigit (chAt buf pos) = true then
    let r1 := digitVal (chAt buf pos)
    if pos + 1 < buf.length ∧ characterIsDigit (chAt buf (pos + 1)) = true then
      some (digitVal (chAt buf (pos + 1)) + r1 * 10, pos + 2)
    else some (r1, pos + 1)
  else none

/-- Embedding of `isLeapYear` from the source.  C `%` truncates toward zero, hence
`Int.tmod`. -/
def isLeapYear (year : Int) : Bool :=
  year.tmod 4 == 0 && (year.tmod 100 != 0 || year.tmod 400 == 0)

/-- Embedding of `isValidDate` from the source. -/
def isValidDate (year month day : Int) : Bool :=
  if month < 1 ∨ month > 12 then false
  else if year < kMinYear ∨ year > kMaxYear then false
  else if day < 1 then false
  else if isLeapYear year then decide (day ≤ kLeapDays.getD month.toNat 0)
  else decide (day ≤ kNormalDays.getD month.toNat 0)

/-- Embedding of `validDate` from the source: the day count fits in a signed 32-bit int. -/
def validDate (daysSinceEpoch : Int) : Bool :=
  decide (-2147483648 ≤ daysSinceEpoch ∧ daysSinceEpoch ≤ 2147483647)

/-- Fuel-indexed body of the `while (year < 1970)` loop in
`daysSinceEpochFromDate`. -/
def normalizeYearLowAux : Nat → Int → Int → Int × Int
  | 0, year, days => (year, days)
  | fuel + 1, year, days =>
    if year < 1970 then
      normalizeYearLowAux fuel (year + kYearInterval) (days - kDaysPerYearInterval)
    else (year, days)

/-- The `while (year < 1970) { year += kYearInterval; daysSinceEpoch -=
kDaysPerYearInterval; }` loop; the fuel bounds the iteration count from
above, so the loop always runs to its exit condition. -/
def normalizeYearLow (year days : Int) : Int × Int :=
  normalizeYearLowAux ((1970 - year).toNat / 400 + 1) year days

/-- Fuel-indexed body of the `while (year >= 2370)` loop in
`daysSinceEpochFromDate`. -/
def normalizeYearHighAux : Nat → Int → Int → Int × Int
  | 0, year, days => (year, days)
  | fuel + 1, year, days =>
    if year ≥ 2370 then
      normalizeYearHighAux fuel (year - kYearInterval) (days + kDaysPerYearInterval)
    else (year, days)

/-- The `while (year >= 2370) { year -= kYearInterval; daysSinceEpoch +=
kDaysPerYearInterval; }` loop. -/
def normalizeYearHigh (year days : Int) : Int × Int :=
  normalizeYearHighAux ((year - 1969).toNat / 400 + 1) year days

/-- Embedding of `daysSinceEpochFromDate` from the source.  `Expected<int64_t>` becomes
`Option Int` (no claim inspects the error message payload). -/
def daysSinceEpochFromDate (year month day : Int) : Option Int :=
  if isValidDate year month day = true then
    let p1 := normalizeYearLow year 0
    let p2 := normalizeYearHigh p1.1 p1.2
    -- index (year - 1970) is in [0, 399] after normalization
    let d1 := p2.2 + kCumulativeYearDays.getD (p2.1 - 1970).toNat 0
    let d2 := d1 +
      (if isLeapYear p2.1 then kCumulativeLeapDays.getD (month - 1).toNat 0
       else kCumulativeDays.getD (month - 1).toNat 0)
    some (d2 + day - 1)
  else none

/-- Embedding of `extractISODayOfTheWeek` from the source.  Both `%` operands are
non-negative in their branches, so C `%` agrees with Lean `%` here. -/
def extractISODayOfTheWeek (daysSinceEpoch : Int) : Int :=
  if daysSinceEpoch < 0 then 7 - ((-daysSinceEpoch + 3) % 7)
  else ((daysSinceEpoch + 3) % 7) + 1

/-- Embedding of `isValidWeekDate` from the source. -/
def isValidWeekDate (weekYear weekOfYear dayOfWeek : Int) : Bool :=
  if dayOfWeek < 1 ∨ dayOfWeek > 7 then false
  else if weekOfYear < 1 ∨ weekOfYear > 52 then false
  else if weekYear < kMinYear ∨ weekYear > kMaxYear then false
  else true

/-- Embedding of `daysSinceEpochFromWeekDate` from the source. -/
def daysSinceEpochFromWeekDate (weekYear weekOfYear dayOfWeek : Int) : Option Int :=
  if isValidWeekDate weekYear weekOfYear dayOfWeek = true then
    (daysSinceEpochFromDate weekYear 1 4).map fun daysSinceEpochOfJanFourth =>
      let firstDayOfWeekYear := extractISODayOfTheWeek daysSinceEpochOfJanFourth
      daysSinceEpochOfJanFourth - (firstDayOfWeekYear - 1) +
        7 * (weekOfYear - 1) + dayOfWeek - 1
  else none

/-- The month length used by `isValidWeekOfMonthDate`
(`isLeapYear(year) ? kLeapDays[month] : kNormalDays[month]`). -/
def monthLengthOf (year month : Int) : Int :=
  if isLeapYear year then kLeapDays.getD month.toNat 0
  else kNormalDays.getD month.toNat 0

/-- The local `firstDayOfWeek` of `isValidWeekOfMonthDate`: ISO day of week
of the first day of the month (0 when the month is invalid; every use is
guarded by the validity of `daysSinceEpochFromDate year month 1`). -/
def firstDayOfWeekOfMonth (year month : Int) : Int :=
  match daysSinceEpochFromDate year month 1 with
  | some d => extractISODayOfTheWeek d
  | none => 0

/-- The local `firstWeekLength` of `isValidWeekOfMonthDate`. -/
def firstWeekLengthOfMonth (year month : Int) : Int :=
  7 - firstDayOfWeekOfMonth year month + 1

/-- The local `actualWeeks` of `isValidWeekOfMonthDate`:
`1 + ceil((monthLength - firstWeekLength) / 7.0)`.  The C code computes the
ceiling in `double`; on every reachable argument (an integer in [21, 30])
the floating-point ceiling coincides with the integer ceiling `(x + 6) / 7`
used here (`/` on a non-negative numerator and positive denominator). -/
def actualWeeksOfMonth (year month : Int) : Int :=
  1 + (monthLengthOf year month - firstWeekLengthOfMonth year month + 6) / 7

/-- The local `lastWeekLength` of `isValidWeekOfMonthDate`
(`(monthLength - firstWeekLength) % 7`, non-negative operands). -/
def lastWeekLengthOfMonth (year month : Int) : Int :=
  (monthLengthOf year month - firstWeekLengthOfMonth year month) % 7

/-- Embedding of `isValidWeekOfMonthDate` from the source. -/
def isValidWeekOfMonthDate (year month weekOfMonth dayOfWeek : Int) : Bool :=
  if year < 1 ∨ year > kMaxYear then false
  else if month < 1 ∨ month > 12 then false
  else
    match daysSinceEpochFromDate year month 1 with
    | none => false
    | some _ =>
      if weekOfMonth < 1 ∨ weekOfMonth > actualWeeksOfMonth year month then false
      else if weekOfMonth = 1 ∧ dayOfWeek < firstDayOfWeekOfMonth year month then
        false
      else if weekOfMonth = actualWeeksOfMonth year month ∧
          lastWeekLengthOfMonth year month ≠ 0 ∧
          dayOfWeek > lastWeekLengthOfMonth year month then
        false
      else true

/-- Embedding of `daysSinceEpochFromWeekOfMonthDate` from the source.  C `month / 12`
truncates toward zero (`Int.tdiv`); `abs(month) % 12` and
`abs(dayOfWeek - 1) % 7` act on non-negative values (`Int.natAbs`, then
Lean `%`); `(month - 1) % 12` and `(dayOfWeek - 1) % 7` are applied to
positive values only, where C `%` agrees with Lean `%`. -/
def daysSinceEpochFromWeekOfMonthDate
    (year month weekOfMonth dayOfWeek : Int) (lenient : Bool) : Option Int :=
  if ¬lenient ∧ isValidWeekOfMonthDate year month weekOfMonth dayOfWeek = false then
    none
  else
    let additionYears : Int :=
      if month < 1 then month.tdiv 12 - 1
      else if month > 12 then (month - 1) / 12
      else 0
    let month2 : Int :=
      if month < 1 then 12 - (month.natAbs : Int) % 12
      else if month > 12 then (month - 1) % 12 + 1
      else month
    let year2 := year + additionYears
    (daysSinceEpochFromDate year2 month2 1).map fun daysOfFirst =>
      let firstDayOfWeek := extractISODayOfTheWeek daysOfFirst
      let days : Int :=
        if dayOfWeek < 1 then 7 - ((dayOfWeek - 1).natAbs : Int) % 7
        else if dayOfWeek > 7 then (dayOfWeek - 1) % 7
        else dayOfWeek % 7
      daysOfFirst - (firstDayOfWeek - 1) + 7 * (weekOfMonth - 1) + days - 1

/-- Fuel-indexed body of the year-digit accumulation loop of
`tryParseDateString`.  On `break` (running value exceeded `kMaxYear`) the
position is left at the digit just consumed, exactly as in the C `for` loop
whose `pos++` is skipped by `break`.  The fuel `buf.length - pos` equals the
maximal number of iterations, so the helper computes exactly what the loop
computes.  `checkedPlus`/`checkedMultiply` cannot overflow `Int`. -/
def parseYearAux (buf : List Char) : Nat → Nat → Int → Int × Nat
  | 0, pos, year => (year, pos)
  | fuel + 1, pos, year =>
    if pos < buf.length ∧ characterIsDigit (chAt buf pos) = true then
      let y := digitVal (chAt buf pos) + year * 10
      if y > kMaxYear then (y, pos)
      else parseYearAux buf fuel (pos + 1) y
    else (year, pos)

/-- The year accumulation loop of `tryParseDateString`. -/
def parseYear (buf : List Char) (pos : Nat) : Int × Nat :=
  parseYearAux buf (buf.length - pos) pos 0

/-- The tail of the legacy (kStrict / kNonStrict) branch of
`tryParseDateString`: trailing-content rules, then the final
`daysSinceEpochFromDate` (note: no 32-bit `validDate` check on this path,
matching the source). -/
def legacyFinish (buf : List Char) (mode : ParseMode) (year month day : Int)
    (pos : Nat) : Option (Int × Nat) :=
  if mode = ParseMode.kStrict ∨ mode = ParseMode.kIso8601 then
    -- In strict mode, check remaining string for non-space characters.
    let pos := skipSpaces buf pos
    if pos < buf.length then none
    else (daysSinceEpochFromDate year month day).map fun d => (d, pos)
  else
    -- In non-strict mode, check for any direct trailing digits.
    if pos < buf.length ∧ characterIsDigit (chAt buf pos) = true then none
    else (daysSinceEpochFromDate year month day).map fun d => (d, pos)

/-- Embedding of `tryParseDateString` from the source: returns `some (daysSinceEpoch,
pos)` where the C function returns `true` and sets its out-parameters,
`none` where it returns `false` (no caller reads `pos` after a failure). -/
def tryParseDateString (buf : List Char) (mode : ParseMode) :
    Option (Int × Nat) :=
  let len := buf.length
  if len = 0 then none
  else
    let pos := if mode ≠ ParseMode.kIso8601 then skipSpaces buf 0 else 0
    if pos ≥ len then none
    else
      let yearneg := chAt buf pos == '-'
      let sign := yearneg || (chAt buf pos == '+')
      let pos := if sign then pos + 1 else pos
      if pos ≥ len then none
      else if ¬characterIsDigit (chAt buf pos) = true then none
      else
        -- First parse the year.
        let yp := parseYear buf pos
        let year1 := yp.1
        let pos := yp.2
        -- Spark requires at least 4 year digits (sign excluded): the C check
        -- is `pos - sign < 4` on the raw cursor.
        if mode = ParseMode.kSparkCast ∧ pos - (if sign then 1 else 0) < 4 then
          none
        else
          let year := if yearneg then -year1 else year1
          if yearneg ∧ year < kMinYear then none
          else if (mode = ParseMode.kSparkCast ∨ mode = ParseMode.kIso8601) ∧
              (pos = len ∨ chAt buf pos = 'T') then
            -- No month or day.
            match daysSinceEpochFromDate year 1 1 with
            | none => none
            | some d => if validDate d then some (d, pos) else none
          else if pos ≥ len then none
          else
            -- Fetch the separator.
            let sep := chAt buf pos
            let pos := pos + 1
            if (mode = ParseMode.kPrestoCast ∨ mode = ParseMode.kSparkCast ∨
                mode = ParseMode.kIso8601) ∧ sep ≠ '-' then none
            else if ¬(mode = ParseMode.kPrestoCast ∨ mode = ParseMode.kSparkCast ∨
                mode = ParseMode.kIso8601) ∧
                ¬(sep = ' ' ∨ sep = '-' ∨ sep = '/' ∨ sep = '\\') then none
            else
              -- Parse the month.
              match parseDoubleDigit buf pos with
              | none => none
              | some (month, pos) =>
                if (mode = ParseMode.kSparkCast ∨ mode = ParseMode.kIso8601) ∧
                    (pos = len ∨ chAt buf pos = 'T') then
                  -- No day.
                  match daysSinceEpochFromDate year month 1 with
                  | none => none
                  | some d => if validDate d then some (d, pos) else none
                else if pos ≥ len then none
                else if chAt buf pos ≠ sep then none
                else
                  let pos := pos + 1
                  if pos ≥ len then none
                  else
                    -- Now parse the day.
                    match parseDoubleDigit buf pos with
                    | none => none
                    | some (day, pos) =>
                      if mode = ParseMode.kPrestoCast ∨ mode = ParseMode.kIso8601 then
                        match daysSinceEpochFromDate year month day with
                        | none => none
                        | some d =>
                          let pos := if mode = ParseMode.kPrestoCast then
                            skipSpaces buf pos else pos
                          if pos = len ∧ validDate d then some (d, pos) else none
                      else if mode = ParseMode.kSparkCast then
                        match daysSinceEpochFromDate year month day with
                        | none => none
                        | some d =>
                          if validDate d = false then none
                          else if pos = len then some (d, pos)
                          else if chAt buf pos = 'T' ∨ chAt buf pos = ' ' then
                            some (d, pos)
                          else none
                      else
                        -- Check for an optional trailing " (BC)".
                        if 5 ≤ len - pos ∧ characterIsSpace (chAt buf pos) = true ∧
                            chAt buf (pos + 1) = '(' ∧ chAt buf (pos + 2) = 'B' ∧
                            chAt buf (pos + 3) = 'C' ∧ chAt buf (pos + 4) = ')' then
                          if yearneg = true ∨ year = 0 then none
                          else
                            let year := -year + 1
                            let pos := pos + 5
                            if year < kMinYear then none
                            else legacyFinish buf mode year month day pos
                        else legacyFinish buf mode year month day pos

/-- Result of `fromDateString`, distinguishing the explicit user error from
the `VELOX_UNREACHABLE()` programming-error abort in the `default` arm of
its error `switch`. -/
inductive DateStringResult where
  | ok (daysSinceEpoch : Int)
  | userError
  | veloxUnreachable
deriving DecidableEq, Repr

/-- Embedding of `fromDateString` from the source.  `skipErrorDetails` models the
thread-local `threadSkipErrorDetails()` flag as an explicit parameter; the
message contents are not modelled, only which arm is taken. -/
def fromDateString (buf : List Char) (mode : ParseMode)
    (skipErrorDetails : Bool) : DateStringResult :=
  match tryParseDateString buf mode with
  | some dp => .ok dp.1
  | none =>
    if skipErrorDetails then .userError
    else
      match mode with
      | ParseMode.kPrestoCast => .userError
      | ParseMode.kSparkCast => .userError
      | ParseMode.kIso8601 => .userError
      | _ => .veloxUnreachable

/-- Embedding of `parseTimeSeparator` from the source: consume at most one
dialect-specific date/time separator character. -/
def parseTimeSeparator (buf : List Char) (pos : Nat)
    (parseMode : TimestampParseMode) : Nat :=
  match parseMode with
  | TimestampParseMode.kIso8601 =>
    if chAt buf pos = 'T' then pos + 1 else pos
  | TimestampParseMode.kPrestoCast =>
    if chAt buf pos = ' ' then pos + 1 else pos
  | TimestampParseMode.kLegacyCast | TimestampParseMode.kSparkCast =>
    if chAt buf pos = ' ' ∨ chAt buf pos = 'T' then pos + 1 else pos

/-- Fuel-indexed body of the microsecond-digit loop of `tryParseTimeString`:
digits beyond the sixth are consumed but ignored (`mult` has reached 0). -/
def microsAux (buf : List Char) : Nat → Nat → Int → Int → Int × Nat
  | 0, pos, _, micros => (micros, pos)
  | fuel + 1, pos, mult, micros =>
    if pos < buf.length ∧ characterIsDigit (chAt buf pos) = true then
      microsAux buf fuel (pos + 1) (mult / 10)
        (if mult > 0 then micros + digitVal (chAt buf pos) * mult else micros)
    else (micros, pos)

/-- Embedding of `fromTime` from the source. -/
def fromTime (hour minute second microseconds : Int) : Int :=
  ((hour * kMinsPerHour + minute) * kSecsPerMinute + second) * kMicrosPerSec +
    microseconds

/-- Embedding of `tryParseTimeString` from the source: returns `some (microsSinceMidnight,
pos)` on success. -/
def tryParseTimeString (buf : List Char) (parseMode : TimestampParseMode) :
    Option (Int × Nat) :=
  let len := buf.length
  if len = 0 then none
  else
    let pos := if parseMode ≠ TimestampParseMode.kIso8601 then skipSpaces buf 0
      else 0
    if pos ≥ len then none
    else if ¬characterIsDigit (chAt buf pos) = true then none
    else
      -- Read the hours.
      match parseDoubleDigit buf pos with
      | none => none
      | some (hour, pos) =>
        if hour < 0 ∨ hour ≥ 24 then none
        else if pos ≥ len ∨ chAt buf pos ≠ ':' then
          if parseMode = TimestampParseMode.kIso8601 then
            some (fromTime hour 0 0 0, pos)
          else none
        else
          -- Fetch the separator, read the minutes.
          let pos := pos + 1
          match parseDoubleDigit buf pos with
          | none => none
          | some (min, pos) =>
            if min < 0 ∨ min ≥ 60 then none
            else if pos < len ∧ chAt buf pos = ':' then
              -- Try to read seconds.
              let pos := pos + 1
              match parseDoubleDigit buf pos with
              | none => none
              | some (sec, pos) =>
                if sec < 0 ∨ sec > 60 then none
                else if pos < len then
                  -- Try to read microseconds.
                  let pos :=
                    if chAt buf pos = '.' then pos + 1
                    else if parseMode = TimestampParseMode.kIso8601 ∧
                        chAt buf pos = ',' then pos + 1
                    else pos
                  if pos ≥ len then none
                  else
                    let mp := microsAux buf (len - pos) pos 100000 0
                    some (fromTime hour min sec mp.1, mp.2)
                else some (fromTime hour min sec 0, pos)
            else some (fromTime hour min 0 0, pos)

/-- Fuel-indexed body of the millisecond-digit loop of
`tryParsePrestoTimeOffsetString` (at most 3 digits are consumed: the loop
condition includes `mult > 0`). -/
def millisAux (buf : List Char) : Nat → Nat → Int → Int → Int × Nat
  | 0, pos, _, millis => (millis, pos)
  | fuel + 1, pos, mult, millis =>
    if pos < buf.length ∧ mult > 0 ∧ characterIsDigit (chAt buf pos) = true then
      millisAux buf fuel (pos + 1) (mult / 10)
        (millis + digitVal (chAt buf pos) * mult)
    else (millis, pos)

/-- The `result *= positive ? 1 : -1; return pos == len;` exit of
`tryParsePrestoTimeOffsetString`. -/
def offsetExit (buf : List Char) (positive : Bool) (result : Int)
    (pos : Nat) : Bool × Nat × Int :=
  (pos == buf.length, pos, if positive then result else -result)

/-- The millisecond segment of `tryParsePrestoTimeOffsetString` (skip the
decimal, then read up to 3 millisecond digits; the loop condition includes
`mult > 0`). -/
def offsetMillisStage (buf : List Char) (positive : Bool) (result : Int)
    (pos : Nat) : Bool × Nat × Int :=
  -- Skip the decimal.
  let pos := if chAt buf pos = '.' ∨ chAt buf pos = ',' then pos + 1 else pos
  if pos ≥ buf.length then (false, pos, result)
  else
    let mp := millisAux buf (buf.length - pos) pos 100 0
    offsetExit buf positive (result + mp.1) mp.2

/-- The seconds segment of `tryParsePrestoTimeOffsetString` (skip the
optional ':', read seconds, exit unless a decimal or digit follows). -/
def offsetSecondsStage (buf : List Char) (positive : Bool) (result : Int)
    (pos : Nat) : Bool × Nat × Int :=
  -- Skip the separator.
  let pos := if chAt buf pos = ':' then pos + 1 else pos
  -- Try to read seconds.
  match parseDoubleDigit buf pos with
  | none => (false, pos, result)
  | some (sec, pos) =>
    if sec < 0 ∨ sec ≥ 60 then (false, pos, result)
    else
      let result := result + sec * kMillisPerSecond
      if pos ≥ buf.length ∨ (chAt buf pos ≠ '.' ∧ chAt buf pos ≠ ',' ∧
          ¬characterIsDigit (chAt buf pos) = true) then
        offsetExit buf positive result pos
      else offsetMillisStage buf positive result pos

/-- The minutes segment of `tryParsePrestoTimeOffsetString` (skip the
optional ':', read minutes, exit unless a ':' or digit follows). -/
def offsetMinutesStage (buf : List Char) (positive : Bool) (result : Int)
    (pos : Nat) : Bool × Nat × Int :=
  -- Skip the separator.
  let pos := if chAt buf pos = ':' then pos + 1 else pos
  -- Read the minutes.
  match parseDoubleDigit buf pos with
  | none => (false, pos, result)
  | some (min, pos) =>
    if min < 0 ∨ min ≥ 60 then (false, pos, result)
    else
      let result := result + min * kMillisPerMinute
      if pos ≥ buf.length ∨ (chAt buf pos ≠ ':' ∧
          ¬characterIsDigit (chAt buf pos) = true) then
        offsetExit buf positive result pos
      else offsetSecondsStage buf positive result pos

/-- Embedding of `tryParsePrestoTimeOffsetString` from the source, as the triple
(success flag, final position, signed millisecond result) mirroring the C
signature `bool(buf, len, size_t& pos, int64_t& result)`.  Every successful
exit in the C code is `return pos == len` after applying the sign
(`offsetExit`); parse-failure exits return `false` with the accumulated
(unsigned) value, which no caller reads.  The function body is split into
the stage helpers above, one per field segment of the C code. -/
def tryParsePrestoTimeOffsetString (buf : List Char) : Bool × Nat × Int :=
  let len := buf.length
  if len = 0 then (false, 0, 0)
  else if ¬(chAt buf 0 = '+' ∨ chAt buf 0 = '-') then (false, 0, 0)
  else
    let positive := chAt buf 0 = '+'
    let pos := 1
    if pos ≥ len then (false, pos, 0)
    else
      -- Read the hours.
      match parseDoubleDigit buf pos with
      | none => (false, pos, 0)
      | some (hour, pos) =>
        if hour < 0 ∨ hour ≥ 24 then (false, pos, 0)
        else
          let result := hour * kMillisPerHour
          if pos ≥ len ∨ (chAt buf pos ≠ ':' ∧
              ¬characterIsDigit (chAt buf pos) = true) then
            offsetExit buf positive result pos
          else offsetMinutesStage buf positive result pos

/-- Embedding of `fromDatetime` from the source.  `microsSinceMidnight` is divided with C
semantics (`Int.tdiv`/`Int.tmod`); every caller passes a non-negative value. -/
def fromDatetime (daysSinceEpoch microsSinceMidnight : Int) : Timestamp :=
  let secondsSinceEpoch := daysSinceEpoch * kSecsPerDay +
    microsSinceMidnight.tdiv kMicrosPerSec
  ⟨secondsSinceEpoch, (microsSinceMidnight.tmod kMicrosPerSec) * kNanosPerMicro⟩

/-- The `ParseMode` fed to the date sub-parse inside
`tryParseTimestampString`. -/
def timestampDateMode (parseMode : TimestampParseMode) : ParseMode :=
  if parseMode = TimestampParseMode.kIso8601 ∨
      parseMode = TimestampParseMode.kSparkCast then ParseMode.kSparkCast
  else ParseMode.kNonStrict

/-- The tail of `tryParseTimestampString` after the date portion produced
`daysSinceEpoch` with the cursor at `pos`: either the input is exhausted
(date at midnight), or one dialect separator is consumed and a time parse is
attempted on the remainder; a failed time parse still succeeds with the date
at midnight ("partial success"), leaving the cursor after the consumed
separator. -/
def timestampTail (buf : List Char) (parseMode : TimestampParseMode)
    (daysSinceEpoch : Int) (pos : Nat) : Option (Timestamp × Nat) :=
  if pos = buf.length then some (fromDatetime daysSinceEpoch 0, pos)
  else
    let pos := parseTimeSeparator buf pos parseMode
    match tryParseTimeString (buf.drop pos) parseMode with
    | none => some (fromDatetime daysSinceEpoch 0, pos)
    | some (micros, timePos) =>
      some (fromDatetime daysSinceEpoch micros, pos + timePos)

/-- Embedding of `tryParseTimestampString` from the source (both callers invoke it with
`pos = 0`): returns `some (timestamp, pos)` where the C function returns
`true`, with `pos` the first unconsumed position. -/
def tryParseTimestampString (buf : List Char)
    (parseMode : TimestampParseMode) : Option (Timestamp × Nat) :=
  let len := buf.length
  -- ISO 8601: leading spaces are not allowed.
  if parseMode = TimestampParseMode.kIso8601 ∧ 0 < skipSpaces buf 0 then none
  else if parseMode = TimestampParseMode.kIso8601 ∧ 0 < len ∧
      chAt buf 0 = 'T' then
    if len = 1 then none
    -- No date. Assume 1970-01-01.
    else timestampTail buf parseMode 0 0
  else
    match tryParseDateString buf (timestampDateMode parseMode) with
    | none => none
    | some (daysSinceEpoch, pos) =>
      timestampTail buf parseMode daysSinceEpoch pos

/-- Result of `fromTimestampWithTimezoneString`, distinguishing the generic
`parserError` from the "Unknown timezone value" user error.  `ok` carries
the local timestamp, whether a named zone was resolved, and the optional
fixed offset in milliseconds, mirroring `ParsedTimestampWithTimeZone` (the
zone object itself is external and is represented by the `Bool`). -/
inductive TimestampWithTimezoneResult where
  | ok (ts : Timestamp) (zoneFound : Bool) (offsetMillis : Option Int)
  | parserError
  | unknownTimezone (name : List Char)
deriving DecidableEq, Repr

/-- Fuel-indexed scan to the first whitespace character, the
`while (timezonePos < len && !characterIsSpace(...)) timezonePos++` loop of
`fromTimestampWithTimezoneString`. -/
def firstSpaceAux (buf : List Char) : Nat → Nat → Nat
  | 0, pos => pos
  | fuel + 1, pos =>
    if pos < buf.length ∧ ¬characterIsSpace (chAt buf pos) = true then
      firstSpaceAux buf fuel (pos + 1)
    else pos

/-- Position of the first whitespace character at or after `pos`. -/
def firstSpaceFrom (buf : List Char) (pos : Nat) : Nat :=
  firstSpaceAux buf (buf.length - pos) pos

/-- The tail of `fromTimestampWithTimezoneString` after the timezone token
was interpreted: skip trailing spaces (except in ISO mode) and require end
of input. -/
def finishTimestampWithTimezone (buf : List Char)
    (parseMode : TimestampParseMode) (ts : Timestamp) (zoneFound : Bool)
    (offset : Option Int) (timezonePos : Nat) : TimestampWithTimezoneResult :=
  let pos := if parseMode ≠ TimestampParseMode.kIso8601 then
    skipSpaces buf timezonePos else timezonePos
  if pos < buf.length then TimestampWithTimezoneResult.parserError
  else TimestampWithTimezoneResult.ok ts zoneFound offset

/-- Embedding of `fromTimestampWithTimezoneString` from the source.  The external
timezone-name resolution service `tz::locateZone(name, false)` is passed in
as the parameter `locateZone` (`true` iff the name resolves to a zone). -/
def fromTimestampWithTimezoneString (buf : List Char)
    (parseMode : TimestampParseMode) (locateZone : List Char → Bool) :
    TimestampWithTimezoneResult :=
  match tryParseTimestampString buf parseMode with
  | none => TimestampWithTimezoneResult.parserError
  | some (resultTimestamp, pos0) =>
    let len := buf.length
    let pos := if pos0 < len ∧ parseMode ≠ TimestampParseMode.kIso8601 ∧
        characterIsSpace (chAt buf pos0) = true then pos0 + 1 else pos0
    -- If there is anything left to parse, it must be a timezone definition.
    if pos < len then
      if parseMode = TimestampParseMode.kIso8601 ∧ chAt buf pos ≠ 'Z' ∧
          chAt buf pos ≠ '+' ∧ chAt buf pos ≠ '-' then
        TimestampWithTimezoneResult.parserError
      else
        let timezonePos := firstSpaceFrom buf pos
        let timeZoneName := (buf.drop pos).take (timezonePos - pos)
        if locateZone timeZoneName then
          finishTimestampWithTimezone buf parseMode resultTimestamp true none
            timezonePos
        else
          let off := tryParsePrestoTimeOffsetString timeZoneName
          if parseMode = TimestampParseMode.kPrestoCast ∧ off.1 = true then
            finishTimestampWithTimezone buf parseMode resultTimestamp false
              (some off.2.2) timezonePos
          else TimestampWithTimezoneResult.unknownTimezone timeZoneName
    else TimestampWithTimezoneResult.ok resultTimestamp false none

/-- The implicit narrowing conversion from the `int64_t` quotient to the
`int32_t` return type of `toDate` / its `convertToDate` lambda:
two's-complement wrap modulo 2^32. -/
def toInt32 (x : Int) : Int :=
  (x + 2147483648) % 4294967296 - 2147483648

/-- The `convertToDate` lambda inside `toDate`: C truncating division and
modulo on the possibly negative `int64_t` seconds (`Int.tdiv`/`Int.tmod`),
with the manual floor adjustment for negative non-multiples; each `return`
narrows the `int64_t` quotient to the lambda's `int32_t` return type
(`toInt32`). -/
def convertToDate (t : Timestamp) : Int :=
  let seconds := t.seconds
  if 0 ≤ seconds ∨ seconds.tmod kSecsPerDay = 0 then
    toInt32 (seconds.tdiv kSecsPerDay)
  else toInt32 (seconds.tdiv kSecsPerDay - 1)

/-- Embedding of `toDate` from the source (its `int32_t` return is already
produced by `convertToDate`).  The external `Timestamp::toTimezone`
local-time shift is passed in as the optional function parameter. -/
def toDate (timestamp : Timestamp)
    (timeZone : Option (Timestamp → Timestamp)) : Int :=
  match timeZone with
  | some toTz => convertToDate (toTz timestamp)
  | none => convertToDate timestamp

/-! ## Theorems -/

/-- Helper: `skipSpaces` does not move when the first character is not
whitespace. -/
theorem skipSpaces_eq_zero (buf : List Char)
    (h : characterIsSpace (chAt buf 0) = false) : skipSpaces buf 0 = 0 := by
  unfold skipSpaces
  cases hl : buf.length with
  | zero => simp [skipSpacesAux]
  | succ n => simp [skipSpacesAux, h]

/-- Helper: the C truncating division with the manual negative-remainder
adjustment computes the floor quotient of the seconds by one day. -/
theorem floorDivSeconds_eq (s : Int) :
    (if 0 ≤ s ∨ s.tmod kSecsPerDay = 0 then s.tdiv kSecsPerDay
     else s.tdiv kSecsPerDay - 1) = s.fdiv kSecsPerDay := by
  rcases le_or_lt 0 s with hpos | hneg
  · rw [if_pos (Or.inl hpos), Int.tdiv_eq_ediv hpos (by norm_num),
      Int.fdiv_eq_ediv _ (by norm_num)]
  · by_cases hdvd : kSecsPerDay ∣ s
    · rw [if_pos (Or.inr (Int.tmod_eq_zero_of_dvd hdvd)),
        Int.tdiv_eq_ediv_of_dvd hdvd, Int.fdiv_eq_ediv_of_dvd hdvd]
    · have hm : s.tmod kSecsPerDay ≠ 0 := fun h =>
        hdvd (Int.dvd_of_tmod_eq_zero h)
      rw [if_neg (by push_neg; exact ⟨by omega, hm⟩),
        Int.fdiv_eq_ediv _ (by norm_num)]
      have hneg2 : s.tdiv kSecsPerDay = -((-s).tdiv kSecsPerDay) := by
        rw [← Int.neg_tdiv, neg_neg]
      rw [hneg2, Int.tdiv_eq_ediv (by omega) (by norm_num)]
      have hdvd2 : ¬(86400 : Int) ∣ s := hdvd
      show -(-s / (86400 : Int)) - 1 = s / (86400 : Int)
      omega

/-- Helper: `convertToDate` is the int32 narrowing of the floor quotient of
the seconds by one day. -/
theorem convertToDate_eq_toInt32_fdiv (t : Timestamp) :
    convertToDate t = toInt32 (t.seconds.fdiv kSecsPerDay) := by
  unfold convertToDate
  rw [← apply_ite toInt32]
  exact congrArg toInt32 (floorDivSeconds_eq t.seconds)

/-- Helper: the int32 narrowing is the identity on values that fit. -/
theorem toInt32_eq_self (x : Int) (h1 : -2147483648 ≤ x)
    (h2 : x ≤ 2147483647) : toInt32 x = x := by
  unfold toInt32
  omega

/-- C6: for every day count `d` (hence every int64 day count),
`extractISODayOfTheWeek d` lies in [1,7], day 0 (the epoch) is Thursday (4),
the function is 7-periodic including across the sign boundary, and it
coincides with the floor-style modulo `(d + 3) % 7 + 1` (Lean's `%` on a
positive modulus is exactly floor/Euclidean modulo), so negative inputs are
handled floor-style rather than by truncating modulo. -/
theorem extractISODayOfTheWeek_spec (d : Int) :
    (1 ≤ extractISODayOfTheWeek d ∧ extractISODayOfTheWeek d ≤ 7) ∧
    extractISODayOfTheWeek 0 = 4 ∧
    extractISODayOfTheWeek (d + 7) = extractISODayOfTheWeek d ∧
    extractISODayOfTheWeek d = (d + 3) % 7 + 1 := by
  refine ⟨?_, by decide, ?_, ?_⟩ <;>
    simp only [extractISODayOfTheWeek] <;> split <;> try split
  all_goals omega

/-- C7 counterexample: `toDate` returns `int32_t`, so the floor quotient is
narrowed with two's-complement wrap.  At seconds = -(2^31 * 86400) - 1 (a
negative instant whose magnitude is not an exact multiple of a day) the
floor quotient is -2147483649, but the code returns the wrapped value
2147483647 — not the floor quotient, and not a rounding toward the earlier
day. -/
theorem toDate_narrowing_counterexample :
    toDate ⟨-185542587187201, 0⟩ none = 2147483647 ∧
    (-185542587187201 : Int).tmod kSecsPerDay ≠ 0 ∧
    (-185542587187201 : Int).fdiv kSecsPerDay = -2147483649 ∧
    toDate ⟨-185542587187201, 0⟩ none ≠
      (-185542587187201 : Int).fdiv kSecsPerDay := by
  refine ⟨by decide, by decide, by decide, by decide⟩

/-- C7 amended: `toDate` converts the (optionally zone-shifted) instant's
seconds to a day count by floor division by 86400 followed by the `int32_t`
narrowing of the quotient; whenever that floor quotient fits in int32 — in
particular for every instant within the representable 32-bit day window,
including all negative seconds of day-magnitude below 2^31 — the result is
exactly the floor quotient, so such negative instants that are not exact
multiples of a day round toward the earlier day (seconds = -1 gives day -1,
not day 0); when a timezone shift is supplied, the instant is first shifted
into local time and then floored. -/
theorem toDate_floor_amended (t : Timestamp)
    (timeZone : Option (Timestamp → Timestamp)) :
    (-2147483648 ≤ ((timeZone.elim t fun toTz => toTz t).seconds).fdiv kSecsPerDay →
      ((timeZone.elim t fun toTz => toTz t).seconds).fdiv kSecsPerDay ≤ 2147483647 →
      toDate t timeZone =
        ((timeZone.elim t fun toTz => toTz t).seconds).fdiv kSecsPerDay) ∧
    toDate ⟨-1, 0⟩ none = -1 := by
  have hX : toDate t timeZone =
      convertToDate (timeZone.elim t fun toTz => toTz t) := by
    cases timeZone <;> rfl
  refine ⟨?_, by decide⟩
  intro h1 h2
  rw [hX, convertToDate_eq_toInt32_fdiv]
  exact toInt32_eq_self _ h1 h2

/-- Witness for `toDate_floor_amended`: the in-range floor behavior at the
concrete instant with seconds -1. -/
theorem toDate_floor_amended_witness :
    toDate ⟨-1, 0⟩ none =
      ((Option.elim (none : Option (Timestamp → Timestamp)) (⟨-1, 0⟩ : Timestamp)
        fun toTz => toTz ⟨-1, 0⟩).seconds).fdiv kSecsPerDay :=
  (toDate_floor_amended ⟨-1, 0⟩ none).1 (by decide) (by decide)

/-- C1 counterexample: under the strict dialect (one of the five dialect
values the claim quantifies over), a failed parse with error details enabled
falls into the `default` arm of the error switch, i.e. reaches
`VELOX_UNREACHABLE()` — an uncatchable abort — so the internal assertion is
reachable for these dialect values. -/
theorem fromDateString_strict_abort_counterexample :
    fromDateString (("x").toList) ParseMode.kStrict false =
      DateStringResult.veloxUnreachable := by decide

/-- C1 amended: for the cast dialects (vendor-cast-A = kSparkCast,
vendor-cast-B = kPrestoCast, ISO-8601) `fromDateString` always returns an
explicit result value (day count or user error) and never reaches the
internal assertion, for any input and either setting of the error-detail
flag; for the strict and non-strict dialects this holds only when error
details are suppressed. -/
theorem fromDateString_explicit_result_amended (buf : List Char) (skip : Bool) :
    fromDateString buf ParseMode.kPrestoCast skip ≠
      DateStringResult.veloxUnreachable ∧
    fromDateString buf ParseMode.kSparkCast skip ≠
      DateStringResult.veloxUnreachable ∧
    fromDateString buf ParseMode.kIso8601 skip ≠
      DateStringResult.veloxUnreachable ∧
    fromDateString buf ParseMode.kStrict true ≠
      DateStringResult.veloxUnreachable ∧
    fromDateString buf ParseMode.kNonStrict true ≠
      DateStringResult.veloxUnreachable := by
  refine ⟨?_, ?_, ?_, ?_, ?_⟩ <;> unfold fromDateString <;>
    cases tryParseDateString buf _ <;> simp

/-- C3 (code bug): the Spark (vendor-cast-A) minimum-year-digit rule is
implemented as `pos - sign < 4` on the raw cursor, which counts skipped
leading whitespace as if it were year digits: `" 200-01-01"` (one leading
space, three year digits) parses successfully to the day count of
0200-01-01, although the very same date string without the leading space is
rejected for having fewer than 4 year digits. -/
theorem sparkDate_yearDigits_whitespace_bug :
    tryParseDateString (("200-01-01").toList) ParseMode.kSparkCast = none ∧
    tryParseDateString ((" 200-01-01").toList) ParseMode.kSparkCast =
      some (-646479, 10) ∧
    daysSinceEpochFromDate 200 1 1 = some (-646479) := by decide

/-- C9: in the legacy dialects, a trailing marker of exactly one space
followed by "(BC)" after the day is accepted only for an unsigned (no '-')
non-zero parsed year, remaps the year to `1 - year` (here `1 - 100 = -99`),
and fails when the remapped year falls below the configured minimum year:
`"100-02-03 (BC)"` succeeds in both legacy dialects with the day count of
year -99 and final position 14; a '+' sign is still accepted; a '-' sign or
a zero year makes the same suffix fail (while `"0-02-03"` without the suffix
succeeds, isolating the marker's year requirement); the maximal-year input
`"292278994-01-01 (BC)"` fails because `1 - 292278994 < kMinYear`; and two
spaces before "(BC)" do not form the marker (the year stays unmapped and
non-strict mode tolerates the trailing text). -/
theorem legacyDate_bcSuffix_spec :
    tryParseDateString (("100-02-03 (BC)").toList) ParseMode.kNonStrict =
      some (-755654, 14) ∧
    tryParseDateString (("100-02-03 (BC)").toList) ParseMode.kStrict =
      some (-755654, 14) ∧
    daysSinceEpochFromDate (1 - 100) 2 3 = some (-755654) ∧
    tryParseDateString (("+100-02-03 (BC)").toList) ParseMode.kNonStrict =
      some (-755654, 15) ∧
    tryParseDateString (("-100-02-03 (BC)").toList) ParseMode.kNonStrict =
      none ∧
    tryParseDateString (("0-02-03 (BC)").toList) ParseMode.kNonStrict = none ∧
    tryParseDateString (("0-02-03").toList) ParseMode.kNonStrict =
      some (-719495, 7) ∧
    tryParseDateString (("292278994-01-01 (BC)").toList) ParseMode.kNonStrict =
      none ∧
    tryParseDateString (("100-02-03  (BC)").toList) ParseMode.kNonStrict =
      some (-682970, 9) ∧
    daysSinceEpochFromDate 100 2 3 = some (-682970) := by decide

/-- Helper: `offsetExit` reports success only at the end of the span. -/
theorem offsetExit_consumes_all (buf : List Char) (positive : Bool)
    (result : Int) (pos : Nat) (b : Bool) (p : Nat) (r : Int)
    (he : offsetExit buf positive result pos = (b, p, r)) (hb : b = true) :
    p = buf.length := by
  simp only [offsetExit, Prod.mk.injEq] at he
  simp_all
  omega

/-- Helper: the millisecond stage reports success only at end of span. -/
theorem offsetMillisStage_consumes_all (buf : List Char) (positive : Bool)
    (result : Int) (pos : Nat) (b : Bool) (p : Nat) (r : Int)
    (he : offsetMillisStage buf positive result pos = (b, p, r))
    (hb : b = true) : p = buf.length := by
  simp only [offsetMillisStage] at he
  repeat' split at he
  all_goals
    first
    | exact offsetExit_consumes_all _ _ _ _ _ _ _ he hb
    | simp_all

/-- Helper: the seconds stage reports success only at end of span. -/
theorem offsetSecondsStage_consumes_all (buf : List Char) (positive : Bool)
    (result : Int) (pos : Nat) (b : Bool) (p : Nat) (r : Int)
    (he : offsetSecondsStage buf positive result pos = (b, p, r))
    (hb : b = true) : p = buf.length := by
  simp only [offsetSecondsStage] at he
  repeat' split at he
  all_goals
    first
    | exact offsetExit_consumes_all _ _ _ _ _ _ _ he hb
    | exact offsetMillisStage_consumes_all _ _ _ _ _ _ _ he hb
    | simp_all

/-- Helper: the minutes stage reports success only at end of span. -/
theorem offsetMinutesStage_consumes_all (buf : List Char) (positive : Bool)
    (result : Int) (pos : Nat) (b : Bool) (p : Nat) (r : Int)
    (he : offsetMinutesStage buf positive result pos = (b, p, r))
    (hb : b = true) : p = buf.length := by
  simp only [offsetMinutesStage] at he
  repeat' split at he
  all_goals
    first
    | exact offsetExit_consumes_all _ _ _ _ _ _ _ he hb
    | exact offsetSecondsStage_consumes_all _ _ _ _ _ _ _ he hb
    | simp_all

/-- Helper: every successful exit of `tryParsePrestoTimeOffsetString`
returns `pos == len`, so success implies the whole span was consumed. -/
theorem tryParsePrestoTimeOffsetString_consumes_all (buf : List Char)
    (b : Bool) (p : Nat) (r : Int)
    (he : tryParsePrestoTimeOffsetString buf = (b, p, r)) (hb : b = true) :
    p = buf.length := by
  simp only [tryParsePrestoTimeOffsetString] at he
  repeat' split at he
  all_goals
    first
    | exact offsetExit_consumes_all _ _ _ _ _ _ _ he hb
    | exact offsetMinutesStage_consumes_all _ _ _ _ _ _ _ he hb
    | simp_all

/-- C8: the signed offset parser succeeds only if it consumes its entire
input span (every successful exit of the source returns `pos == len`, so any
trailing unconsumed character is a failure even when all prior fields
parsed, as `"+05:30x"` shows); the minute/second/millisecond fields and
every ':' separator are optional (`"+05"`, `"-0530"`, `"+05:30:45.123"`);
and on the literal inputs, `"+05:30"` parses to +19800000 ms and `"-0530"`
to -19800000 ms. -/
theorem prestoTimeOffset_spec :
    (∀ buf : List Char, (tryParsePrestoTimeOffsetString buf).1 = true →
      (tryParsePrestoTimeOffsetString buf).2.1 = buf.length) ∧
    tryParsePrestoTimeOffsetString (("+05:30").toList) = (true, 6, 19800000) ∧
    tryParsePrestoTimeOffsetString (("-0530").toList) = (true, 5, -19800000) ∧
    tryParsePrestoTimeOffsetString (("+05").toList) = (true, 3, 18000000) ∧
    (tryParsePrestoTimeOffsetString (("+05:30x").toList)).1 = false ∧
    tryParsePrestoTimeOffsetString (("+05:30:45.123").toList) =
      (true, 13, 19845123) := by
  refine ⟨?_, by decide, by decide, by decide, by decide, by decide⟩
  intro buf h
  exact tryParsePrestoTimeOffsetString_consumes_all buf
    (tryParsePrestoTimeOffsetString buf).1
    (tryParsePrestoTimeOffsetString buf).2.1
    (tryParsePrestoTimeOffsetString buf).2.2 rfl h

/-- Witness for `prestoTimeOffset_spec`: the full-consumption property at
the concrete successful input `"+05:30"`. -/
theorem prestoTimeOffset_spec_witness :
    (tryParsePrestoTimeOffsetString (("+05:30").toList)).2.1 =
      (("+05:30").toList).length :=
  prestoTimeOffset_spec.1 (("+05:30").toList) (by decide)

/-- C10: under the ISO-8601 timestamp dialect, an input beginning with 'T'
followed by at least one more character is parsed with no date portion: the
day count defaults to 0 (1970-01-01) and the remainder after the 'T' is fed
to the time-of-day parser (whose failure still yields the 1970-01-01
partial success at position 1); the one-character input "T" alone fails;
`"T12:30"` gives 1970-01-01 12:30 (45000 seconds). -/
theorem iso8601_timeOnly_spec :
    tryParseTimestampString (("T").toList) TimestampParseMode.kIso8601 = none ∧
    (∀ buf : List Char, 2 ≤ buf.length → chAt buf 0 = 'T' →
      tryParseTimestampString buf TimestampParseMode.kIso8601 =
        match tryParseTimeString (buf.drop 1) TimestampParseMode.kIso8601 with
        | some mt => some (fromDatetime 0 mt.1, 1 + mt.2)
        | none => some (fromDatetime 0 0, 1)) ∧
    tryParseTimestampString (("T12:30").toList) TimestampParseMode.kIso8601 =
      some (⟨45000, 0⟩, 6) := by
  refine ⟨by decide, ?_, by decide⟩
  intro buf hlen hT
  have hsp : skipSpaces buf 0 = 0 := skipSpaces_eq_zero buf (by rw [hT]; decide)
  have h0 : 0 < buf.length := by omega
  have h1 : ¬buf.length = 1 := by omega
  simp only [tryParseTimestampString, hsp, hT, h0, h1, lt_irrefl, and_true,
    and_false, if_false, if_true, eq_self_iff_true, true_and, if_neg h1]
  simp only [timestampTail, parseTimeSeparator, hT, if_pos rfl,
    if_neg (by omega : ¬(0 = buf.length))]
  cases h : tryParseTimeString (buf.drop 1) TimestampParseMode.kIso8601 with
  | none => rw [List.drop_one] at h; simp [h]
  | some mt =>
    cases mt with
    | mk micros timePos => rw [List.drop_one] at h; simp [h]

/-- Witness for `iso8601_timeOnly_spec`: applying the general time-only rule
at the concrete input `"Tx"` (whose remainder is not a valid time). -/
theorem iso8601_timeOnly_spec_witness :
    tryParseTimestampString (("Tx").toList) TimestampParseMode.kIso8601 =
      some (fromDatetime 0 0, 1) := by
  rw [iso8601_timeOnly_spec.2.1 (("Tx").toList) (by decide) (by decide)]
  decide

/-- Helper: a January 4th is a valid date for every year in the configured
range, so `daysSinceEpochFromDate y 1 4` succeeds there. -/
theorem daysSinceEpochFromDate_jan4_isSome (y : Int) (h1 : kMinYear ≤ y)
    (h2 : y ≤ kMaxYear) : ∃ j, daysSinceEpochFromDate y 1 4 = some j := by
  have hv : isValidDate y 1 4 = true := by
    unfold isValidDate
    rw [if_neg (by norm_num), if_neg (by omega), if_neg (by norm_num)]
    split <;> decide
  simp only [daysSinceEpochFromDate, hv, if_pos]
  exact ⟨_, rfl⟩

/-- C5: `daysSinceEpochFromWeekDate` returns an error exactly when
`dayOfWeek` is outside [1,7], or `weekOfYear` is outside [1,52] (so week 53
is always rejected, even in 53-week years), or `weekYear` is outside the
configured [kMinYear, kMaxYear]; on success it computes the day count from
the day of January 4th (whose week is week 1): the Monday of that week plus
the week/day offsets. -/
theorem daysSinceEpochFromWeekDate_spec (y w d : Int) :
    (daysSinceEpochFromWeekDate y w d = none ↔
      (d < 1 ∨ 7 < d ∨ w < 1 ∨ 52 < w ∨ y < kMinYear ∨ kMaxYear < y)) ∧
    (isValidWeekDate y w d = true →
      ∃ j, daysSinceEpochFromDate y 1 4 = some j ∧
        daysSinceEpochFromWeekDate y w d =
          some (j - (extractISODayOfTheWeek j - 1) + 7 * (w - 1) + d - 1)) := by
  have hmain : isValidWeekDate y w d = true →
      ∃ j, daysSinceEpochFromDate y 1 4 = some j ∧
        daysSinceEpochFromWeekDate y w d =
          some (j - (extractISODayOfTheWeek j - 1) + 7 * (w - 1) + d - 1) := by
    intro hv
    have hbounds : kMinYear ≤ y ∧ y ≤ kMaxYear := by
      unfold isValidWeekDate at hv
      split_ifs at hv
      all_goals simp_all
    obtain ⟨j, hj⟩ := daysSinceEpochFromDate_jan4_isSome y hbounds.1 hbounds.2
    exact ⟨j, hj, by simp [daysSinceEpochFromWeekDate, hv, hj]⟩
  constructor
  · constructor
    · intro hnone
      by_contra hc
      push_neg at hc
      have hv : isValidWeekDate y w d = true := by
        unfold isValidWeekDate
        rw [if_neg (by omega), if_neg (by omega), if_neg (by omega)]
      obtain ⟨j, hj, he⟩ := hmain hv
      rw [he] at hnone
      exact Option.noConfusion hnone
    · intro hc
      have hv : isValidWeekDate y w d = false := by
        unfold isValidWeekDate
        split_ifs <;> first | rfl | omega
      simp [daysSinceEpochFromWeekDate, hv]
  · exact hmain

/-- Witness for `daysSinceEpochFromWeekDate_spec`: week 53 is rejected even
in a 53-week ISO year (2020 has 53 ISO weeks). -/
theorem daysSinceEpochFromWeekDate_spec_witness :
    daysSinceEpochFromWeekDate 2020 53 4 = none :=
  (daysSinceEpochFromWeekDate_spec 2020 53 4).1.mpr (by decide)

/-- Helper: the first day of any month is a valid date for every year in
the configured range, so `daysSinceEpochFromDate y m 1` succeeds there. -/
theorem daysSinceEpochFromDate_first_isSome (y m : Int) (hy1 : kMinYear ≤ y)
    (hy2 : y ≤ kMaxYear) (hm1 : 1 ≤ m) (hm2 : m ≤ 12) :
    ∃ j, daysSinceEpochFromDate y m 1 = some j := by
  have hv : isValidDate y m 1 = true := by
    unfold isValidDate
    rw [if_neg (by omega), if_neg (by omega), if_neg (by norm_num)]
    split <;> (interval_cases m <;> decide)
  simp only [daysSinceEpochFromDate, hv, if_pos]
  exact ⟨_, rfl⟩

/-- C4: `daysSinceEpochFromWeekOfMonthDate` normalizes the month into
[1,12] carrying overflow/underflow into the year with floor-division
semantics (on a positive divisor Lean's `/` and `%` are exactly floor
division and floor modulo, so month 13 maps to next year month 1 and month
0 to previous year month 12), and computes the day count from the first day
of the normalized month; in non-lenient mode a `weekOfMonth` outside the
month's real week count `actualWeeksOfMonth`, or a `dayOfWeek` before the
first week's first day or after the last week's last day, fails validation
and the function returns an error whenever validation fails, while lenient
mode skips the validation and runs the arithmetic (its success depends only
on the normalized first-of-month date being representable). -/
theorem daysSinceEpochFromWeekOfMonthDate_spec (y m w d : Int) :
    (daysSinceEpochFromWeekOfMonthDate y m w d true =
      daysSinceEpochFromWeekOfMonthDate (y + (m - 1) / 12) ((m - 1) % 12 + 1)
        w d true) ∧
    (isValidWeekOfMonthDate y m w d = false →
      daysSinceEpochFromWeekOfMonthDate y m w d false = none) ∧
    (1 ≤ m → m ≤ 12 → 1 ≤ y → y ≤ kMaxYear →
      (w < 1 ∨ actualWeeksOfMonth y m < w) →
      isValidWeekOfMonthDate y m w d = false) ∧
    (1 ≤ m → m ≤ 12 → 1 ≤ y → y ≤ kMaxYear →
      ((w = 1 ∧ d < firstDayOfWeekOfMonth y m) ∨
       (w = actualWeeksOfMonth y m ∧ lastWeekLengthOfMonth y m ≠ 0 ∧
        lastWeekLengthOfMonth y m < d)) →
      isValidWeekOfMonthDate y m w d = false) ∧
    ((daysSinceEpochFromWeekOfMonthDate y m w d true).isSome =
      (daysSinceEpochFromDate (y + (m - 1) / 12) ((m - 1) % 12 + 1) 1).isSome) := by
  have hA : (if m < 1 then m.tdiv 12 - 1
      else if m > 12 then (m - 1) / 12 else 0) = (m - 1) / 12 := by
    split_ifs with h1 h2
    · have e1 : m.tdiv 12 = -((-m).tdiv 12) := by rw [← Int.neg_tdiv, neg_neg]
      rw [e1, Int.tdiv_eq_ediv (by omega) (by norm_num)]
      omega
    · rfl
    · omega
  have hM : (if m < 1 then 12 - (m.natAbs : Int) % 12
      else if m > 12 then (m - 1) % 12 + 1 else m) = (m - 1) % 12 + 1 := by
    split_ifs with h1 h2
    · omega
    · rfl
    · omega
  have hR1 : ¬((m - 1) % 12 + 1 < 1) := by omega
  have hR2 : ¬((m - 1) % 12 + 1 > 12) := by omega
  have hnorm : daysSinceEpochFromWeekOfMonthDate y m w d true =
      daysSinceEpochFromWeekOfMonthDate (y + (m - 1) / 12) ((m - 1) % 12 + 1)
        w d true := by
    simp only [daysSinceEpochFromWeekOfMonthDate, not_true, false_and,
      if_false, hA, hM, hR1, hR2, if_neg hR1, if_neg hR2]
    have : (m - 1) % 12 + 1 - 1 = (m - 1) % 12 := by omega
    simp [this, Int.emod_emod_of_dvd]
  refine ⟨hnorm, ?_, ?_, ?_, ?_⟩
  · intro hv
    simp [daysSinceEpochFromWeekOfMonthDate, hv]
  · intro hm1 hm2 hy1 hy2 hw
    unfold isValidWeekOfMonthDate
    rw [if_neg (by omega), if_neg (by omega)]
    obtain ⟨j, hj⟩ := daysSinceEpochFromDate_first_isSome y m
      (by show (-292275055 : Int) ≤ y; omega) hy2 hm1 hm2
    rw [hj]
    exact if_pos (by omega)
  · intro hm1 hm2 hy1 hy2 hw
    unfold isValidWeekOfMonthDate
    rw [if_neg (by omega), if_neg (by omega)]
    obtain ⟨j, hj⟩ := daysSinceEpochFromDate_first_isSome y m
      (by show (-292275055 : Int) ≤ y; omega) hy2 hm1 hm2
    rw [hj]
    split_ifs <;> first | rfl | omega
  · rw [hnorm]
    simp only [daysSinceEpochFromWeekOfMonthDate, not_true, false_and,
      if_false, if_neg hR1, if_neg hR2]
    rcases hde : daysSinceEpochFromDate (y + (m - 1) / 12) ((m - 1) % 12 + 1) 1
      with _ | j <;> simp [hde]

/-- Witness for `daysSinceEpochFromWeekOfMonthDate_spec`: December 2024 has
6 calendar weeks, so week-of-month 9 fails validation and the non-lenient
call errors. -/
theorem daysSinceEpochFromWeekOfMonthDate_spec_witness :
    daysSinceEpochFromWeekOfMonthDate 2024 12 9 1 false = none :=
  (daysSinceEpochFromWeekOfMonthDate_spec 2024 12 9 1).2.1
    ((daysSinceEpochFromWeekOfMonthDate_spec 2024 12 9 1).2.2.1 (by norm_num)
      (by norm_num) (by norm_num) (by norm_num) (Or.inr (by decide)))

/-- C2 counterexample: on `"2020-01-01 notatime"` (vendor-cast-B timestamp
dialect) the composer does succeed with the parsed date at midnight
(2020-01-01 is day 18262), but it reports position 11 — after the date AND
the separator space it consumed before attempting the time parse — not the
position immediately after the date, which is 10 (`"2020-01-01"` has 10
characters). -/
theorem timestampPartialSuccess_pos_counterexample :
    tryParseTimestampString (("2020-01-01 notatime").toList)
      TimestampParseMode.kPrestoCast = some (fromDatetime 18262 0, 11) ∧
    tryParseTimestampString (("2020-01-01 notatime").toList)
      TimestampParseMode.kPrestoCast ≠ some (fromDatetime 18262 0, 10) := by
  constructor
  · decide
  · decide

/-- C2 amended: whenever the date portion parses successfully (with the
dialect the composer feeds to the date sub-parser) but the remainder — after
the composer consumes one optional dialect separator character — is not a
valid time string, `tryParseTimestampString` does not fail: it returns the
parsed date at midnight and reports the position immediately after the date
and the consumed separator (`parseTimeSeparator buf p parseMode`), leaving
the rest for the caller; concretely, `"2020-01-01 notatime"` yields the
date-only partial success at position 11, and the zone-aware entry point
then treats the remainder `"notatime"` as a timezone token, so whenever the
external zone lookup does not know `"notatime"` the overall parse fails
with an unknown-timezone error naming that token rather than succeeding. -/
theorem timestampPartialSuccess_amended :
    (∀ (buf : List Char) (parseMode : TimestampParseMode) (days : Int)
      (p : Nat),
      ¬(parseMode = TimestampParseMode.kIso8601 ∧
        ((0 < buf.length ∧ chAt buf 0 = 'T') ∨ 0 < skipSpaces buf 0)) →
      tryParseDateString buf (timestampDateMode parseMode) = some (days, p) →
      p < buf.length →
      tryParseTimeString (buf.drop (parseTimeSeparator buf p parseMode))
        parseMode = none →
      tryParseTimestampString buf parseMode =
        some (fromDatetime days 0, parseTimeSeparator buf p parseMode)) ∧
    tryParseTimestampString (("2020-01-01 notatime").toList)
      TimestampParseMode.kPrestoCast = some (fromDatetime 18262 0, 11) ∧
    (∀ locateZone : List Char → Bool,
      locateZone (("notatime").toList) = false →
      fromTimestampWithTimezoneString (("2020-01-01 notatime").toList)
        TimestampParseMode.kPrestoCast locateZone =
        TimestampWithTimezoneResult.unknownTimezone (("notatime").toList)) := by
  refine ⟨?_, by decide, ?_⟩
  · intro buf parseMode days p hg hdate hp htime
    have hne : ¬(p = buf.length) := by omega
    cases parseMode with
    | kIso8601 =>
      simp only [true_and] at hg
      push_neg at hg
      obtain ⟨hT, hsp⟩ := hg
      have hsp0 : skipSpaces buf 0 = 0 := by omega
      simp [tryParseTimestampString, hsp0, hdate, timestampTail, htime, hne, hT]
      intro h0 hTc
      exact absurd hTc (hT h0)
    | kPrestoCast =>
      simp [tryParseTimestampString, hdate, timestampTail, htime, hne]
    | kLegacyCast =>
      simp [tryParseTimestampString, hdate, timestampTail, htime, hne]
    | kSparkCast =>
      simp [tryParseTimestampString, hdate, timestampTail, htime, hne]
  · intro locateZone hlz
    have h1 : tryParseTimestampString (("2020-01-01 notatime").toList)
        TimestampParseMode.kPrestoCast = some (fromDatetime 18262 0, 11) := by
      decide
    simp only [fromTimestampWithTimezoneString, h1]
    rw [show (if 11 < (("2020-01-01 notatime").toList).length ∧
        TimestampParseMode.kPrestoCast ≠ TimestampParseMode.kIso8601 ∧
        characterIsSpace (chAt (("2020-01-01 notatime").toList) 11) = true
        then 11 + 1 else 11) = 11 from by decide]
    rw [if_pos (by decide : 11 < (("2020-01-01 notatime").toList).length)]
    rw [if_neg (by decide)]
    rw [show ((("2020-01-01 notatime").toList).drop 11).take
        (firstSpaceFrom (("2020-01-01 notatime").toList) 11 - 11) =
        ("notatime").toList from by decide]
    rw [hlz]
    decide

/-- Witness for `timestampPartialSuccess_amended`: the unknown-timezone
failure at the concrete zone lookup that knows no names at all. -/
theorem timestampPartialSuccess_amended_witness :
    fromTimestampWithTimezoneString (("2020-01-01 notatime").toList)
      TimestampParseMode.kPrestoCast (fun _ => false) =
      TimestampWithTimezoneResult.unknownTimezone (("notatime").toList) :=
  timestampPartialSuccess_amended.2.2 (fun _ => false) rfl

end Velox
